import Mathlib
/-!
Verification of the go-spss SPSS (.sav) writer against its specification.

This file gives a shallow embedding of the two source files of the
repository (`main.go` and `writer.go`, package `gospss`) and proves or
refutes the frozen claims about it.

Modelling conventions:
* Go strings are modelled as lists of bytes (`GoStr := List Nat`); the
  byte-level operations of the source (`len`, slicing, concatenation)
  become `List.length`, `List.take`/`List.drop`, `++`.  `strings.ToUpper`
  and the name-validation regex are modelled at the ASCII level, which is
  exact for ASCII strings (every string exercised by the claims).
* Go machine integers (`int8`, `int16`, `int32`) are modelled as `Int`;
  the validation logic of the source keeps every value far from the
  overflow boundaries on all paths the claims touch.  Go's truncating
  division and remainder are `Int.tdiv` / `Int.tmod`.
* Go `float64` values are modelled as `ℚ` (exact arithmetic).  Every
  float the compact-opcode comparison of the source touches is an integer
  in [-99, 151], exactly representable in IEEE-754 binary64, so the
  comparison `number == i - bias` coincides with its exact-arithmetic
  model.  The 8-byte IEEE-754 serialization of an arbitrary float is kept
  abstract as the environment field `f64le`; the two constants whose
  bytes the file layout needs (`100.0` and `math.MaxFloat64`) are given
  concretely.
* The output sink (the `*os.File` / `WriterSeeker` behind the
  `bufio.Writer`) is modelled as a byte list plus an `ok` flag, together
  with an abstract `sink` predicate telling which writes succeed; the
  `bufio.Writer` is a transparent pass-through (it only delays bytes, and
  every byte is flushed before the single seek-back of `Finish`).
* Go standard-library parsers used by the writer (`strconv.ParseFloat`,
  `time.Parse` for the datetime layout) are external collaborators and
  are abstract environment fields; the date layout `"02-Jan-2006"` is
  modelled concretely (`parseDDMonYYYY`) because claim C9 needs its value
  on a concrete input.
-/
set_option maxRecDepth 8000
namespace GoSpss
/-! ### Framing lemmas

Every bytecode or record operation of the writer at most appends output
bytes and rewrites the pending bytecode buffers; the schema fields
(`names`, `index`, `vars`, `valCount`) are untouched, and with a sink
that accepts every write the error flag is untouched as well. -/
/-! ### Concrete environments and runs for the claims -/

/-- A Go string, viewed as its byte sequence. -/
abbrev GoStr := List Nat

/-- Bytes of an ASCII string literal (for ASCII text this equals Go's byte view). -/
def asciiBytes (s : String) : GoStr := s.data.map Char.toNat

/-- `SpssType` constant `SpssTypeNumeric` (main.go:14). -/
def SpssTypeNumeric : GoStr := asciiBytes ("NUMERIC")

/-- `SpssType` constant `SpssTypeDate` (main.go:16). -/
def SpssTypeDate : GoStr := asciiBytes ("DATE")

/-- `SpssType` constant `SpssTypeDatetime` (main.go:18). -/
def SpssTypeDatetime : GoStr := asciiBytes ("DATETIME")

/-- `SpssType` constant `SpssTypeString` (main.go:20). -/
def SpssTypeString : GoStr := asciiBytes ("STRING")

/-- `SpssMeasure` constant `SpssMeasureOrdinal` (main.go:28). -/
def SpssMeasureOrdinal : GoStr := asciiBytes ("ORDINAL")

/-- `SpssMeasure` constant `SpssMeasureNominal` (main.go:30). -/
def SpssMeasureNominal : GoStr := asciiBytes ("NOMINAL")

/-- `SpssMeasure` constant `SpssMeasureScale` (main.go:32). -/
def SpssMeasureScale : GoStr := asciiBytes ("SCALE")

/-- Value label (main.go:36-39). -/
structure Label where
  value : GoStr
  desc  : GoStr
deriving DecidableEq

/-- Public variable description (main.go:48-57).  `decimal` is `int8`,
`width` is `int16` in the source. -/
structure Variable where
  name      : GoStr
  shortName : GoStr
  type      : GoStr
  measure   : GoStr
  decimal   : Int
  width     : Int
  label     : GoStr
  labels    : List Label
deriving DecidableEq

/-- Internal variable record (main.go:59-72).  The unused `calcType`
field (never assigned nor read in the source) is omitted. -/
structure IVar where
  index     : Int
  name      : GoStr
  shortName : GoStr
  spssType  : GoStr
  measure   : Int
  decimal   : Int
  width     : Int
  format    : Int
  segments  : Int
  label     : GoStr
  labels    : List Label
deriving DecidableEq

/-- `TimeOffset` (writer.go:21): seconds between the SPSS epoch
(1582-10-14) and the Unix epoch. -/
def TimeOffset : Int := 12219379200

/-- ASCII model of `strings.ToUpper` (exact on ASCII bytes). -/
def goToUpper (s : GoStr) : GoStr :=
  s.map (fun b => if 97 ≤ b ∧ b ≤ 122 then b - 32 else b)

/-- ASCII letter. -/
def isAlphaB (b : Nat) : Bool := (65 ≤ b && b ≤ 90) || (97 ≤ b && b ≤ 122)

/-- First-character class of the name regex: `[a-z@]` under the `i` flag. -/
def nameClass1 (b : Nat) : Bool := isAlphaB b || b = 64

/-- Middle-character class of the name regex: `[a-z0-9!._#@$]` under the
`i` flag (the dot inside the bracket is a literal dot). -/
def nameClass2 (b : Nat) : Bool :=
  isAlphaB b || (48 ≤ b && b ≤ 57) ||
    b = 33 || b = 46 || b = 95 || b = 35 || b = 64 || b = 36

/-- ASCII model of `nameValidatorRegex` (main.go:80):
the RE2 pattern anchored as start, one `nameClass1` byte, zero or more
`nameClass2` bytes, and one final byte other than a dot — so a valid name
has at least two bytes. -/
def nameValid (s : GoStr) : Bool :=
  match s with
  | [] => false
  | b :: rest =>
    nameClass1 b && !rest.isEmpty && rest.dropLast.all nameClass2 &&
      rest.getLast? ≠ some 46

/-- `Variable.getMeasure` (main.go:82-91). -/
def getMeasure (V : Variable) : Int :=
  if V.measure = SpssMeasureScale then 3
  else if V.measure = SpssMeasureOrdinal then 2
  else 1

/-- `Variable.getSegments` (main.go:142-144): the source always returns 1. -/
def getSegments (_ : Variable) : Int := 1

/-- `Variable.getPrint` (main.go:146-157). -/
def getPrint (V : Variable) : Int :=
  if V.type = SpssTypeNumeric then 5
  else if V.type = SpssTypeDate then 20
  else if V.type = SpssTypeDatetime then 22
  else 1

/-- `Variable.setDefaultWidth` (main.go:159-175), as the resulting
(width, decimal) pair; applied by `AddVariable` when `V.width = 0`. -/
def defaultWidthOf (t : GoStr) (d : Int) : Int × Int :=
  if t = SpssTypeDate then (11, 0)
  else if t = SpssTypeDatetime then (20, 0)
  else if t = SpssTypeString then (40, 0)
  else (8 + d, d)

/-- `variable.segmentWidth` (main.go:130-140); the index argument is
unused in the source body as well. -/
def segmentWidth (v : IVar) (_ : Nat) : Int :=
  if v.spssType = SpssTypeString then
    (if v.labels = [] then v.width else 40)
  else 0

/-- `elementCount` (writer.go:123-125) with Go's truncating division. -/
def elementCount (width : Int) : Int := Int.tdiv (width - 1) 8 + 1

/-- `SpssWriter.caseSize` summand for one variable: the element counts of
its segments (writer.go:129-133 inner loop). -/
def caseSizeVar (v : IVar) : Int :=
  ((List.range v.segments.toNat).map (fun se => elementCount (segmentWidth v se))).sum

/-- `SpssWriter.caseSize` (writer.go:127-135). -/
def caseSize (vars : List IVar) : Int := (vars.map caseSizeVar).sum

/-- `stob` (writer.go:86-93): truncate or space-pad to exactly `l` bytes. -/
def stob (s : GoStr) (l : Nat) : GoStr :=
  if l < s.length then s.take l else s ++ List.replicate (l - s.length) 32

/-- `stobp` (writer.go:95-102): truncate or pad with byte `pad`. -/
def stobp (s : GoStr) (l : Nat) (pad : Nat) : GoStr :=
  if l < s.length then s.take l else s ++ List.replicate (l - s.length) pad

/-- `strconv.Itoa` for the non-negative integers the source feeds it. -/
def itoa (n : Nat) : GoStr := (Nat.toDigits 10 n).map Char.toNat

/-- Little-endian 4-byte encoding of an `int32` value, as produced by
`binary.Write(s, endian, int32(n))` with `endian = binary.LittleEndian`
(writer.go:19). -/
def int32LE (n : Int) : List Nat :=
  let u := (n.emod 4294967296).toNat
  [u % 256, u / 256 % 256, u / 65536 % 256, u / 16777216 % 256]

/-- IEEE-754 binary64 little-endian bytes of `100.0` (the compression
bias written by `headerRecord`, writer.go:234). -/
def bias100Bytes : List Nat := [0, 0, 0, 0, 0, 0, 89, 64]

/-- IEEE-754 binary64 little-endian bytes of `math.MaxFloat64`. -/
def maxFloatBytes : List Nat := [255, 255, 255, 255, 255, 255, 239, 127]

/-- IEEE-754 binary64 little-endian bytes of `-math.MaxFloat64`. -/
def negMaxFloatBytes : List Nat := [255, 255, 255, 255, 255, 255, 239, 255]

/-- Go map assignment `m[k] = v` on the association-list model of
`map[string]string`: overwrite the existing key or append a new binding. -/
def insertGo : List (GoStr × GoStr) → GoStr → GoStr → List (GoStr × GoStr)
  | [], k, v => [(k, v)]
  | (k', v') :: rest, k, v =>
    if k' = k then (k, v) :: rest else (k', v') :: insertGo rest k v

/-- Go map lookup `m[k]` on the association-list model. -/
def lookupGo : List (GoStr × GoStr) → GoStr → Option GoStr
  | [], _ => none
  | (k, v) :: rest, key => if k = key then some v else lookupGo rest key

/-- The environment of external collaborators: which sink writes succeed,
how a float is serialized, and the standard-library parsers.
`parseFloat64` models `strconv.ParseFloat(val, 64)` (writer.go:199),
`parseFloat32` models `strconv.ParseFloat(s, 32)` inside `atof`
(writer.go:116), and `parseDatetime` models
`time.Parse("02-Jan-2006 15:04:05", val)` composed with
`Time.Unix()` (writer.go:191-196). -/
structure Env where
  sink          : List Nat → List Nat → Bool
  f64le         : ℚ → List Nat
  parseFloat64  : GoStr → Option ℚ
  parseFloat32  : GoStr → Option ℚ
  parseDatetime : GoStr → Option Int
  productName   : GoStr
  creationDate  : GoStr
  creationTime  : GoStr

/-- The writer state: the sink's bytes and error flag, the pending
bytecode command group and data buffer (`bytecodeWriter`, writer.go
second file lines 254-260: `command`+`index` become the `command` list,
whose length is the index), and the `SpssWriter` fields (writer.go:24-35);
`vars` is the source's `variables` field (`variables` is reserved in Lean). -/
structure SpssState where
  file     : List Nat
  ok       : Bool
  command  : List Nat
  data     : List Nat
  names    : List (GoStr × GoStr)
  index    : Int
  vars     : List IVar
  valCount : Nat
deriving DecidableEq

/-- One write to the buffered sink: append on success, or record the
I/O error in the `ok` flag (after an error every later write fails,
as for a `bufio.Writer` whose underlying writer failed). -/
def emit (E : Env) (bs : List Nat) (st : SpssState) : SpssState × Bool :=
  if st.ok && E.sink st.file bs then ({ st with file := st.file ++ bs }, true)
  else ({ st with ok := false }, false)

/-- A write whose error the source discards (every `s.Write` /
`binary.Write(s, ...)` in the record emitters drops the returned error). -/
def emitI (E : Env) (bs : List Nat) (st : SpssState) : SpssState := (emit E bs st).1

/-- `bytecodeWriter.checkAndWrite` (writer.go bytecode file, lines
266-278): once eight opcodes are pending, write the command group, then
the data buffer, then reset both; an I/O error is returned to the caller
and leaves the pending buffers in place. -/
def checkAndWrite (E : Env) (st : SpssState) : SpssState × Option Unit :=
  if 8 ≤ st.command.length then
    match emit E st.command st with
    | (st1, false) => (st1, some ())
    | (st1, true) =>
      match emit E st.data st1 with
      | (st2, false) => (st2, some ())
      | (st2, true) => ({ st2 with command := [], data := [] }, none)
  else (st, none)

/-- `bytecodeWriter.WriteMissing` (lines 280-284): push opcode 255. -/
def WriteMissing (E : Env) (st : SpssState) : SpssState × Option Unit :=
  checkAndWrite E { st with command := st.command ++ [255] }

/-- The loop of `bytecodeWriter.WriteNumber` (lines 287-293): the first
`i ∈ [1, 251]` with `number == i - bias`; the bias is 100.0, the value
passed by both constructors (writer.go:41 and 64). -/
def compactOpcode (q : ℚ) : Option Nat :=
  (List.range' 1 251).find? (fun i => q = (i : ℚ) - 100)

/-- `bytecodeWriter.WriteNumber` (lines 286-298): push the compact
opcode, or push 253 and append the float's 8 IEEE-754 bytes to the data
buffer. -/
def WriteNumber (E : Env) (q : ℚ) (st : SpssState) : SpssState × Option Unit :=
  match compactOpcode q with
  | some i => checkAndWrite E { st with command := st.command ++ [i] }
  | none =>
    checkAndWrite E
      { st with command := st.command ++ [253], data := st.data ++ E.f64le q }

/-- Eight ASCII spaces. -/
def spaces8 : List Nat := List.replicate 8 32

/-- The opcode push of one `WriteString` element (lines 315-322):
opcode 254 for a blank 8-byte element, otherwise 253 plus the 8 data
bytes. -/
def bcPush (st : SpssState) (p : List Nat) : SpssState :=
  if p = spaces8 then { st with command := st.command ++ [254] }
  else { st with command := st.command ++ [253], data := st.data ++ p }

/-- `bytecodeWriter.WriteString` (lines 300-330): `elements` iterations,
each consuming up to 8 bytes of `val`, space-padded via `bcPush`.  The
error of `checkAndWrite` stops the iteration as in the source. -/
def bcWriteString (E : Env) : GoStr → Nat → SpssState → SpssState × Option Unit
  | _, 0, st => (st, none)
  | val, e + 1, st =>
    let p := if 8 < val.length then val.take 8 else val
    let rest := if 8 < val.length then val.drop 8 else []
    match checkAndWrite E (bcPush st (p ++ List.replicate (8 - p.length) 32)) with
    | (st, some e') => (st, some e')
    | (st, none) => bcWriteString E rest e st

/-- `bytecodeWriter.Flush` (lines 332-338): zero-pad the command group to
eight opcodes and emit it. -/
def bcFlush (E : Env) (st : SpssState) : SpssState × Option Unit :=
  checkAndWrite E
    { st with command := st.command ++ List.replicate (8 - st.command.length) 0 }

/-- `SpssWriter.writeString` loop body (writer.go:137-154): `se` is the
current segment index, the second argument the remaining segment count;
each segment consumes up to 255 bytes of the value. -/
def swWriteStringAux (E : Env) (v : IVar) :
    Nat → Nat → GoStr → SpssState → SpssState × Option Unit
  | _, 0, _, st => (st, none)
  | se, n + 1, val, st =>
    let p := if 255 < val.length then val.take 255 else val
    let rest := if 255 < val.length then val.drop 255 else []
    match bcWriteString E p (elementCount (segmentWidth v se)).toNat st with
    | (st, some e) => (st, some e)
    | (st, none) => swWriteStringAux E v (se + 1) n rest st

/-- `SpssWriter.writeString` (writer.go:137-154). -/
def swWriteString (E : Env) (v : IVar) (val : GoStr) (st : SpssState) :
    SpssState × Option Unit :=
  swWriteStringAux E v 0 v.segments.toNat val st

/-- Go's `a % m; if a < 0 then a += m` padding idiom
(writer.go:335-339 and 384-387), with Go's truncating remainder. -/
def padTrunc (a m : Int) : Nat :=
  let p := Int.tmod a m
  (if p < 0 then p + m else p).toNat

/-- The 8 value bytes of one value label (writer.go:372-377): `stob` of
the raw value for non-numeric types, otherwise the IEEE-754 bytes of
`atof(label.Value)`; `none` is the fatal `log.Fatalln` abort of `atof`
(writer.go:115-121) on a parse failure. -/
def labelValueBytes (E : Env) (v : IVar) (lab : Label) : Option (List Nat) :=
  if v.spssType ≠ SpssTypeNumeric then some (stob lab.value 8)
  else (E.parseFloat32 lab.value).map E.f64le

/-- One value label of `valueLabelRecords` (writer.go:371-391): the value
bytes, the clamped description and its space padding. -/
def valueLabelOne (E : Env) (v : IVar) (lab : Label) (st : SpssState) :
    Option SpssState :=
  match labelValueBytes E v lab with
  | none => none
  | some valBytes =>
    let st := emitI E valBytes st
    let l := min lab.desc.length 120
    let st := emitI E [l] st
    let st := emitI E (stob lab.desc l) st
    some (emitI E (List.replicate (padTrunc (8 - (l : Int) - 1) 8) 32) st)

/-- The label loop of `valueLabelRecords` for one variable. -/
def valueLabelList (E : Env) (v : IVar) :
    List Label → SpssState → Option SpssState
  | [], st => some st
  | lab :: rest, st =>
    match valueLabelOne E v lab st with
    | none => none
    | some st => valueLabelList E v rest st

/-- The variable loop of `valueLabelRecords` (writer.go:365-399). -/
def valueLabelRecordsAux (E : Env) : List IVar → SpssState → Option SpssState
  | [], st => some st
  | v :: rest, st =>
    if v.labels ≠ [] ∧ v.spssType ≠ SpssTypeString then
      match valueLabelList E v v.labels
          (emitI E (int32LE 3 ++ int32LE v.labels.length) st) with
      | none => none
      | some st =>
        valueLabelRecordsAux E rest
          (emitI E (int32LE 4 ++ int32LE 1 ++ int32LE v.index) st)
    else valueLabelRecordsAux E rest st

/-- `SpssWriter.valueLabelRecords` (writer.go:365-399); `none` models the
`log.Fatalln` process abort inside `atof` (writer.go:115-121). -/
def valueLabelRecords (E : Env) (st : SpssState) : Option SpssState :=
  valueLabelRecordsAux E st.vars st

/-- `machineIntegerInfoRecord` (writer.go:401-414).  The source emits the
twelve `int32` fields through twelve separate `binary.Write` calls whose
errors are discarded; they are concatenated into one `emitI` here (the
resulting bytes are identical). -/
def machineIntegerInfoRecord (E : Env) (st : SpssState) : SpssState :=
  emitI E (int32LE 7 ++ int32LE 3 ++ int32LE 4 ++ int32LE 8 ++ int32LE 0 ++
    int32LE 10 ++ int32LE 1 ++ int32LE (-1) ++ int32LE 1 ++ int32LE 1 ++
    int32LE 2 ++ int32LE 65001) st

/-- `machineFloatingPointInfoRecord` (writer.go:416-424). -/
def machineFloatingPointInfoRecord (E : Env) (st : SpssState) : SpssState :=
  emitI E (int32LE 7 ++ int32LE 4 ++ int32LE 8 ++ int32LE 3 ++
    negMaxFloatBytes ++ maxFloatBytes ++ negMaxFloatBytes) st

/-- `SpssWriter.varCount` (writer.go:426-432). -/
def varCount (vars : List IVar) : Int := (vars.map (·.segments)).sum

/-- One segment of `variableDisplayParameterRecord` (writer.go:439-456). -/
def vdpSeg (v : IVar) (se : Nat) : List Nat :=
  int32LE v.measure ++
    (if v.spssType = SpssTypeString then
      (if se ≠ 0 then int32LE 8
       else if v.width ≤ 40 then int32LE v.width
       else int32LE 40) ++ int32LE 0
     else int32LE 8 ++ int32LE 1)

/-- `variableDisplayParameterRecord` (writer.go:434-457). -/
def variableDisplayParameterRecord (E : Env) (st : SpssState) : SpssState :=
  emitI E (int32LE 7 ++ int32LE 11 ++ int32LE 4 ++
    int32LE (varCount st.vars * 3) ++
    (st.vars.map (fun v => ((List.range v.segments.toNat).map (vdpSeg v)).flatten)).flatten) st

/-- `longVarNameRecords` (writer.go:459-477): `SHORT=LONG` entries joined
by a tab.  The source iterates the Go map in unspecified order; the model
iterates in insertion order (no claim depends on the order). -/
def longVarNameRecords (E : Env) (st : SpssState) : SpssState :=
  let buf := List.intercalate [9] (st.names.map (fun p => p.1 ++ [61] ++ p.2))
  emitI E (int32LE 7 ++ int32LE 13 ++ int32LE 1 ++ int32LE buf.length ++ buf) st

/-- `veryLongStringRecord` (writer.go:479-508): emitted only when some
variable has more than one segment; each entry is
`SHORT=` + `stobp(strconv.Itoa(0), 5, 0)` + `\0\t` exactly as in the
source. -/
def veryLongStringRecord (E : Env) (st : SpssState) : SpssState :=
  if st.vars.any (fun v => 1 < v.segments) then
    let buf := (st.vars.filterMap (fun v =>
      if 1 < v.segments then
        some (v.shortName ++ [61] ++ stobp (itoa 0) 5 0 ++ [0, 9])
      else none)).flatten
    emitI E (int32LE 7 ++ int32LE 14 ++ int32LE 1 ++ int32LE buf.length ++ buf) st
  else st

/-- `encodingRecord` (writer.go:510-516). -/
def encodingRecord (E : Env) (st : SpssState) : SpssState :=
  emitI E (int32LE 7 ++ int32LE 20 ++ int32LE 1 ++ int32LE 5 ++
    asciiBytes ("UTF-8")) st

/-- Payload of `longStringValueLabelsRecord` for one variable
(writer.go:534-545). -/
def lsvlVar (v : IVar) : List Nat :=
  int32LE v.shortName.length ++ v.shortName ++ int32LE v.width ++
    int32LE v.labels.length ++
    (v.labels.map (fun l =>
      int32LE l.value.length ++ l.value ++ int32LE l.desc.length ++ l.desc)).flatten

/-- `longStringValueLabelsRecord` (writer.go:518-553). -/
def longStringValueLabelsRecord (E : Env) (st : SpssState) : SpssState :=
  if st.vars.any (fun v => !v.labels.isEmpty && v.spssType = SpssTypeString) then
    let buf := (st.vars.filterMap (fun v =>
      if v.labels ≠ [] ∧ v.spssType = SpssTypeString then some (lsvlVar v)
      else none)).flatten
    emitI E (int32LE 7 ++ int32LE 21 ++ int32LE 1 ++ int32LE buf.length ++ buf) st
  else st

/-- `terminationRecord` (writer.go:555-558). -/
def terminationRecord (E : Env) (st : SpssState) : SpssState :=
  emitI E (int32LE 999 ++ int32LE 0) st

/-- `SpssWriter.writeInfoRecords` (writer.go:213-223); `none` is the
process abort of `atof` reached through `valueLabelRecords`. -/
def writeInfoRecords (E : Env) (st : SpssState) : Option SpssState :=
  match valueLabelRecords E st with
  | none => none
  | some st =>
    some (terminationRecord E (longStringValueLabelsRecord E (encodingRecord E
      (veryLongStringRecord E (longVarNameRecords E
        (variableDisplayParameterRecord E (machineFloatingPointInfoRecord E
          (machineIntegerInfoRecord E st))))))))

/-- Decimal digit value of an ASCII byte. -/
def digitVal (b : Nat) : Option Nat :=
  if 48 ≤ b ∧ b ≤ 57 then some (b - 48) else none

/-- English three-letter month abbreviations, as matched by the
`"Jan"` component of a Go time layout. -/
def monthNum (m : GoStr) : Option Nat :=
  if m = asciiBytes ("Jan") then some 1
  else if m = asciiBytes ("Feb") then some 2
  else if m = asciiBytes ("Mar") then some 3
  else if m = asciiBytes ("Apr") then some 4
  else if m = asciiBytes ("May") then some 5
  else if m = asciiBytes ("Jun") then some 6
  else if m = asciiBytes ("Jul") then some 7
  else if m = asciiBytes ("Aug") then some 8
  else if m = asciiBytes ("Sep") then some 9
  else if m = asciiBytes ("Oct") then some 10
  else if m = asciiBytes ("Nov") then some 11
  else if m = asciiBytes ("Dec") then some 12
  else none

/-- Proleptic-Gregorian leap year. -/
def isLeapG (y : Int) : Bool := (y.emod 4 = 0 && y.emod 100 ≠ 0) || y.emod 400 = 0

/-- Days in a month of the proleptic Gregorian calendar. -/
def daysInMonth (y : Int) (m : Nat) : Nat :=
  if m = 2 then (if isLeapG y then 29 else 28)
  else if m = 4 ∨ m = 6 ∨ m = 9 ∨ m = 11 then 30
  else 31

/-- Days from 1970-01-01 to the given proleptic-Gregorian civil date
(the standard era/year-of-era computation); Go's `time` package uses the
same calendar for `Parse` and `Unix()`. -/
def daysFromCivil (y : Int) (m d : Nat) : Int :=
  let y := y - (if m ≤ 2 then 1 else 0)
  let era := Int.tdiv (if 0 ≤ y then y else y - 399) 400
  let yoe := y - era * 400
  let doy := Int.tdiv (153 * ((m : Int) + (if 2 < (m : Int) then -3 else 9)) + 2) 5
               + (d : Int) - 1
  let doe := yoe * 365 + Int.tdiv yoe 4 - Int.tdiv yoe 100 + doy
  era * 146097 + doe - 719468

/-- Model of `time.Parse("02-Jan-2006", val)` followed by `.Unix()`
(writer.go:183-188): a `DD-Mon-YYYY` date in UTC, with a two-digit day,
a canonical English month abbreviation and a four-digit year, rejecting
days outside the month; the result is the Unix timestamp in seconds. -/
def parseDDMonYYYY (s : GoStr) : Option Int :=
  match s with
  | [d1, d2, 45, m1, m2, m3, 45, y1, y2, y3, y4] =>
    match digitVal d1, digitVal d2, monthNum [m1, m2, m3],
          digitVal y1, digitVal y2, digitVal y3, digitVal y4 with
    | some a, some b, some mo, some c, some e, some f, some g =>
      let day := a * 10 + b
      let year : Int := ((c * 1000 + e * 100 + f * 10 + g : Nat) : Int)
      if 1 ≤ day ∧ day ≤ daysInMonth year mo then
        some (86400 * daysFromCivil year mo day)
      else none
    | _, _, _, _, _, _, _ => none
  | _ => none

/-- One cell of `AddValueRow`'s variable loop (writer.go:163-207).  Every
error returned by the bytecode layer is discarded, exactly as in the
source, which drops the results of `s.writeString`,
`s.bytecode.WriteMissing` and `s.bytecode.WriteNumber`. -/
def writeCell (E : Env) (values : List (GoStr × GoStr)) (v : IVar)
    (st : SpssState) : SpssState :=
  match lookupGo values v.name with
  | none =>
    if v.spssType = SpssTypeString then (swWriteString E v [] st).1
    else (WriteMissing E st).1
  | some val =>
    if v.spssType = SpssTypeString then
      let val := if v.width < (val.length : Int) then val.take v.width.toNat else val
      (swWriteString E v val st).1
    else if v.spssType = SpssTypeDate then
      match parseDDMonYYYY val with
      | none => (WriteMissing E st).1
      | some u => (WriteNumber E ((u + TimeOffset : Int) : ℚ) st).1
    else if v.spssType = SpssTypeDatetime then
      match E.parseDatetime val with
      | none => (WriteMissing E st).1
      | some u => (WriteNumber E ((u + TimeOffset : Int) : ℚ) st).1
    else
      match E.parseFloat64 val with
      | none => (WriteMissing E st).1
      | some q => (WriteNumber E q st).1

/-- The variable loop of `AddValueRow`. -/
def writeCells (E : Env) (values : List (GoStr × GoStr)) :
    List IVar → SpssState → SpssState
  | [], st => st
  | v :: rest, st => writeCells E values rest (writeCell E values v st)

/-- `SpssWriter.AddValueRow` (writer.go:156-211): emit the info records
on the first row (outer `none` models the `atof` process abort reachable
there), write one cell per declared variable, bump the row count.  The
inner `Option Unit` is the function's Go `error` result; the source's
single return statement is `return nil`, hence it is always `none`. -/
def AddValueRow (E : Env) (values : List (GoStr × GoStr)) (st : SpssState) :
    Option (SpssState × Option Unit) :=
  match (if st.valCount = 0 then writeInfoRecords E st else some st) with
  | none => none
  | some st =>
    let st := writeCells E values st.vars st
    some ({ st with valCount := st.valCount + 1 }, none)

/-- The bytes of the header record (writer.go:225-239) for a given
variable list: magic, padded product string, layout code 2, the case
size of the variables added so far, compression 1, weight index 0, the
ncases placeholder -1, the bias 100.0, creation date and time, the file
label, and three zero padding bytes. -/
def headerBytes (E : Env) (vars : List IVar) : List Nat :=
  stob (asciiBytes ("$FL2")) 4 ++
    stob (asciiBytes ("@(#) SPSS DATA FILE - ") ++ E.productName) 60 ++
    int32LE 2 ++ int32LE (caseSize vars) ++ int32LE 1 ++ int32LE 0 ++
    int32LE (-1) ++ bias100Bytes ++ stob E.creationDate 9 ++
    stob E.creationTime 8 ++ stob (asciiBytes ("Generated SPSS")) 64 ++
    [0, 0, 0]

/-- `headerRecord` (writer.go:225-239), written during construction. -/
def headerRecord (E : Env) (st : SpssState) : SpssState :=
  emitI E (headerBytes E st.vars) st

/-- The zero writer state built by the constructors (writer.go:43-53). -/
def initState : SpssState :=
  { file := [], ok := true, command := [], data := [], names := [],
    index := 1, vars := [], valCount := 0 }

/-- `NewSpssWriter` (writer.go:38-58): initialize the state and write the
header record; the function's Go `error` result is always `nil`.
`NewSpssInMemoryWriter` (writer.go:61-84) differs only in the sink and
product name, both abstracted into `Env`. -/
def NewSpssWriter (E : Env) : SpssState := headerRecord E initState

/-- Validation error kinds of `AddVariable`, one per `return fmt.Errorf`
branch (writer.go:244-288), in source order. -/
inductive AVErr where
  | nameEmpty | nameTooLong | nameInvalid | duplicateName
  | decimalRange | widthRange | widthOver40 | widthNotAboveDecimal
deriving DecidableEq

/-- The collision loop of `getShortName` (main.go:110-123).  `none`
models the two Go panics: the slice `short[:8-len(iString)]` panics when
`8 - len(iString)` is negative (a nine-digit counter) or exceeds
`len(short)`; the fuel of 100000000 covers every loop prefix reachable
before the nine-digit panic, so fuel exhaustion is unreachable. -/
def shortNameLoop (names : List (GoStr × GoStr)) :
    Nat → Nat → GoStr → Option GoStr
  | 0, _, _ => none
  | fuel + 1, i, short =>
    if (lookupGo names short).isNone then some short
    else if 8 < (itoa i).length then none
    else if short.length < 8 - (itoa i).length then none
    else shortNameLoop names fuel (i + 1)
      (short.take (8 - (itoa i).length) ++ itoa i)

/-- `Variable.getShortName` (main.go:103-128): upper-case the first eight
bytes of the name, resolve collisions, then record the winner in the
name map. -/
def getShortName (st : SpssState) (V : Variable) :
    Option (GoStr × List (GoStr × GoStr)) :=
  match shortNameLoop st.names 100000000 1 ((goToUpper V.name).take 8) with
  | none => none
  | some short => some (short, insertGo st.names short V.name)

/-- `Variable.checkAndGetShortName` (main.go:94-100): an explicit short
name is recorded with no uniqueness check. -/
def checkAndGetShortName (st : SpssState) (V : Variable) :
    Option (GoStr × List (GoStr × GoStr)) :=
  if V.shortName = [] then getShortName st V
  else some (V.shortName, insertGo st.names V.shortName V.name)

/-- The print/write format word for a string segment (writer.go:322):
`int32(v.format)<<16 | width<<8` with bitwise or. -/
def fmtCodeStr (fmt width : Int) : Int :=
  ((Nat.lor (fmt.toNat <<< 16) (width.toNat <<< 8) : Nat) : Int)

/-- The print/write format word for a numeric variable (writer.go:324):
`int32(v.format)<<16 | int32(v.width)<<8 | int32(v.decimal)`. -/
def fmtCodeNum (fmt width dec : Int) : Int :=
  ((Nat.lor (Nat.lor (fmt.toNat <<< 16) (width.toNat <<< 8)) dec.toNat : Nat) : Int)

/-- One extended-string continuation stub record (writer.go:348-356). -/
def contStubRecord : List Nat :=
  int32LE 2 ++ int32LE (-1) ++ int32LE 0 ++ int32LE 0 ++ int32LE 0 ++
    int32LE 0 ++ spaces8

/-- One segment's variable record plus the append to `s.variables`
(writer.go:308-360; the source appends `v` once per segment, inside the
segment loop). -/
def varRecordSeg (E : Env) (v : IVar) (seg : Nat) (st : SpssState) : SpssState :=
  let width := segmentWidth v seg
  let hasLabel : Bool := seg = 0 && v.label ≠ []
  let st := emitI E (int32LE 2 ++ int32LE width ++
    int32LE (if hasLabel then 1 else 0) ++ int32LE 0) st
  let format := if v.spssType = SpssTypeString then fmtCodeStr v.format width
                else fmtCodeNum v.format v.width v.decimal
  let st := emitI E (int32LE format ++ int32LE format ++ stob v.shortName 8) st
  let st := if hasLabel then
      emitI E (int32LE v.label.length ++ v.label ++
        List.replicate (padTrunc (4 - (v.label.length : Int)) 4) 0) st
    else st
  let st := if 8 < width then
      emitI E (List.flatten (List.replicate (elementCount width - 1).toNat
        contStubRecord)) st
    else st
  { st with vars := st.vars ++ [v] }

/-- `SpssWriter.AddVariable` (writer.go:243-363).  The outer `Option` is
`none` at the `getShortName` panic; otherwise the pair is the Go
`(error, receiver state)` view: every validation failure returns its
error with the state untouched, then the internal variable is built
(using the default width/decimal of `setDefaultWidth` when the width is
zero), the short name is recorded, the column index advanced, and the
variable records emitted. -/
def AddVariable (E : Env) (st : SpssState) (V : Variable) :
    Option (Option AVErr × SpssState) :=
  if V.name = [] then some (some .nameEmpty, st)
  else if 64 < V.name.length then some (some .nameTooLong, st)
  else if !nameValid V.name then some (some .nameInvalid, st)
  else if (lookupGo st.names V.name).isSome then some (some .duplicateName, st)
  else if V.decimal < 0 ∨ 16 < V.decimal then some (some .decimalRange, st)
  else if V.width < 0 ∨ 32767 < V.width then some (some .widthRange, st)
  else if V.type ≠ SpssTypeString ∧ 40 < V.width then some (some .widthOver40, st)
  else if V.width ≠ 0 ∧ V.width ≤ V.decimal then some (some .widthNotAboveDecimal, st)
  else
    let wd := if V.width = 0 then defaultWidthOf V.type V.decimal
              else (V.width, V.decimal)
    match checkAndGetShortName st V with
    | none => none
    | some (short, names') =>
      let v : IVar := { index := st.index, name := V.name, shortName := short,
                        spssType := V.type, measure := getMeasure V,
                        decimal := wd.2, width := wd.1, format := getPrint V,
                        segments := getSegments V, label := V.label,
                        labels := V.labels }
      let st := { st with
        names := names',
        index := (List.range v.segments.toNat).foldl
          (fun ix se => ix + elementCount (segmentWidth v se)) st.index }
      some (none, (List.range v.segments.toNat).foldl
        (fun s seg => varRecordSeg E v seg s) st)

/-- The direct write of the row count through the seeker at byte offset
80 (writer.go:565-566), bypassing the buffered writer (which has been
flushed just before). -/
def seekWrite80 (E : Env) (bs : List Nat) (st : SpssState) : SpssState :=
  if st.ok && E.sink st.file bs then
    { st with file := st.file.take 80 ++ bs ++ st.file.drop (80 + bs.length) }
  else { st with ok := false }

/-- `updateHeaderNCases` (writer.go:562-567): flush the bytecode stream
(its error is discarded), flush the buffer (transparent here), then
overwrite bytes 80..84 with the row count. -/
def updateHeaderNCases (E : Env) (st : SpssState) : SpssState :=
  seekWrite80 E (int32LE st.valCount) (bcFlush E st).1

/-- `Finish` (writer.go:570-573); the trailing `s.Flush()` is a no-op in
the pass-through buffer model.  `Finish` has no error result in the
source. -/
def Finish (E : Env) (st : SpssState) : SpssState := updateHeaderNCases E st

/-- A sequence of `AddVariable` calls; a panic (`none`) aborts the run,
a validation error leaves the state unchanged and the run continues. -/
def runVars (E : Env) : SpssState → List Variable → Option SpssState
  | st, [] => some st
  | st, V :: Vs =>
    match AddVariable E st V with
    | none => none
    | some (_, st') => runVars E st' Vs

/-- A sequence of `AddValueRow` calls; `none` is the `atof` abort. -/
def runRows (E : Env) : SpssState → List (List (GoStr × GoStr)) → Option SpssState
  | st, [] => some st
  | st, r :: rs =>
    match AddValueRow E r st with
    | none => none
    | some (st', _) => runRows E st' rs

/-- A complete `new → add_variable* → add_row*` run (before `Finish`). -/
def runAll (E : Env) (Vs : List Variable) (rows : List (List (GoStr × GoStr))) :
    Option SpssState :=
  (runVars E (NewSpssWriter E) Vs).bind (fun s => runRows E s rows)

/-- The sink accepts every write. -/
def GoodSink (E : Env) : Prop := ∀ f bs, E.sink f bs = true

/-- Frame relation for the output-only operations. -/
def Ext (E : Env) (st st' : SpssState) : Prop :=
  (∃ t, st'.file = st.file ++ t) ∧ st'.names = st.names ∧
    st'.index = st.index ∧ st'.vars = st.vars ∧
    st'.valCount = st.valCount ∧ (GoodSink E → st'.ok = st.ok)

/-- Weak frame relation: output may only grow, the row count is
unchanged, and under an always-accepting sink the error flag is
unchanged.  Unlike `Ext` it allows schema changes, so it also covers
`AddVariable`. -/
def WExt (E : Env) (st st' : SpssState) : Prop :=
  (∃ t, st'.file = st.file ++ t) ∧ st'.valCount = st.valCount ∧
    (GoodSink E → st'.ok = st.ok)

/-- A concrete environment whose sink accepts every write. -/
def envOk : Env :=
  { sink := fun _ _ => true
    f64le := fun _ => List.replicate 8 0
    parseFloat64 := fun s => if s = asciiBytes ("1") then some 1 else none
    parseFloat32 := fun _ => none
    parseDatetime := fun _ => none
    productName := asciiBytes ("xml2sav 2.0")
    creationDate := asciiBytes ("01 Jan 26")
    creationTime := asciiBytes ("12:00:00") }

/-- A default-width numeric variable with an explicit short name. -/
def numericVar : Variable :=
  { name := asciiBytes ("ab"), shortName := asciiBytes ("AB"),
    type := SpssTypeNumeric, measure := SpssMeasureNominal, decimal := 0,
    width := 0, label := [], labels := [] }

/-- Two rows with no entries (every cell system-missing). -/
def c3Rows : List (List (GoStr × GoStr)) := [[], []]

/-- The state after `new`, one `AddVariable` and two `AddValueRow`s. -/
def c3St : SpssState := (runAll envOk [numericVar] c3Rows).getD initState

/-- The state after `new` and one default-width numeric `AddVariable`. -/
def c1St : SpssState := (runAll envOk [numericVar] []).getD initState

/-- A string variable of declared width 300 with an explicit short name. -/
def stringVar300 : Variable :=
  { name := asciiBytes ("st"), shortName := asciiBytes ("VS"),
    type := SpssTypeString, measure := SpssMeasureNominal, decimal := 0,
    width := 300, label := [], labels := [] }

/-- The state after `new` and one width-300 string `AddVariable`. -/
def c2St : SpssState := (runVars envOk (NewSpssWriter envOk) [stringVar300]).getD initState

/-- A numeric variable carrying a value label whose text does not parse
as a float. -/
def labelVar : Variable :=
  { name := asciiBytes ("cd"), shortName := asciiBytes ("CD"),
    type := SpssTypeNumeric, measure := SpssMeasureScale, decimal := 0,
    width := 0, label := [],
    labels := [{ value := asciiBytes ("xx"), desc := asciiBytes ("bad") }] }

/-- The state after `new` and `AddVariable labelVar`. -/
def c10St : SpssState := (runVars envOk (NewSpssWriter envOk) [labelVar]).getD initState

/-- The internal variable created for `labelVar`. -/
def c10IV : IVar :=
  { index := 1, name := asciiBytes ("cd"), shortName := asciiBytes ("CD"),
    spssType := SpssTypeNumeric, measure := 3, decimal := 0, width := 8,
    format := 5, segments := 1, label := [],
    labels := [{ value := asciiBytes ("xx"), desc := asciiBytes ("bad") }] }

/-- An internal Date variable as `AddVariable` creates it (default width
11, print format 20, one segment). -/
def dateIV : IVar :=
  { index := 1, name := asciiBytes ("dt"), shortName := asciiBytes ("DT"),
    spssType := SpssTypeDate, measure := 1, decimal := 0, width := 11,
    format := 20, segments := 1, label := [], labels := [] }

/-- A row binding the Date variable to `"14-Oct-1582"`. -/
def c9Values : List (GoStr × GoStr) :=
  [(asciiBytes ("dt"), asciiBytes ("14-Oct-1582"))]

/-- An internal Numeric variable as `AddVariable` creates it for a
default-width numeric variable. -/
def numericIV : IVar :=
  { index := 1, name := asciiBytes ("ab"), shortName := asciiBytes ("AB"),
    spssType := SpssTypeNumeric, measure := 1, decimal := 0, width := 8,
    format := 5, segments := 1, label := [], labels := [] }

/-- The disjunction of the validation failures of `AddVariable`, in the
order the source checks them (writer.go:244-288). -/
def failsValidation (st : SpssState) (V : Variable) : Prop :=
  V.name = [] ∨ 64 < V.name.length ∨ nameValid V.name = false ∨
    (lookupGo st.names V.name).isSome = true ∨ V.decimal < 0 ∨ 16 < V.decimal ∨
    V.width < 0 ∨ 32767 < V.width ∨ (V.type ≠ SpssTypeString ∧ 40 < V.width) ∨
    (V.width ≠ 0 ∧ V.width ≤ V.decimal)

/-- A variable with an empty name (rejected by the first check). -/
def emptyNameVar : Variable :=
  { name := [], shortName := [], type := SpssTypeNumeric,
    measure := SpssMeasureNominal, decimal := 0, width := 0, label := [],
    labels := [] }

/-- The short-name invariant: every recorded variable's short name is a
key of the name map, and the recorded short names are pairwise
distinct. -/
def ShortInv (st : SpssState) : Prop :=
  (∀ v ∈ st.vars, (lookupGo st.names v.shortName).isSome = true) ∧
    (st.vars.map (·.shortName)).Nodup

/-- A numeric variable with the derived (empty) short name. -/
def derVarA : Variable :=
  { name := asciiBytes ("ab"), shortName := [], type := SpssTypeNumeric,
    measure := SpssMeasureNominal, decimal := 0, width := 0, label := [],
    labels := [] }

/-- A second derived-short-name variable. -/
def derVarB : Variable := { derVarA with name := asciiBytes ("cd") }

/-- The state after adding the two derived-short-name variables. -/
def c5DSt : SpssState :=
  (runVars envOk (NewSpssWriter envOk) [derVarA, derVarB]).getD initState

/-- A numeric variable with the explicit short name `"X"`. -/
def xVarA : Variable :=
  { name := asciiBytes ("ab"), shortName := asciiBytes ("X"),
    type := SpssTypeNumeric, measure := SpssMeasureNominal, decimal := 0,
    width := 0, label := [], labels := [] }

/-- A second variable with the same explicit short name `"X"`. -/
def xVarB : Variable := { xVarA with name := asciiBytes ("cd") }

/-- The state after `AddVariable xVarA`. -/
def c5St1 : SpssState :=
  ((AddVariable envOk (NewSpssWriter envOk) xVarA).getD (none, initState)).2

/-- The state after `AddVariable xVarA` then `AddVariable xVarB`. -/
def c5St2 : SpssState := ((AddVariable envOk c5St1 xVarB).getD (none, initState)).2

/-- The always-failing sink environment. -/
def envFail : Env := { envOk with sink := fun _ _ => false }

/-- A row binding the numeric variable `"ab"` to unparsable text. -/
def c6Row : List (GoStr × GoStr) := [(asciiBytes ("ab"), asciiBytes ("xx"))]

/-- The writer built over the failing sink. -/
def c6St1 : SpssState := NewSpssWriter envFail

/-- The failing-sink state after `AddVariable numericVar`. -/
def c6St2 : SpssState :=
  ((AddVariable envFail c6St1 numericVar).getD (none, initState)).2

/-- The failing-sink state after one `AddValueRow`. -/
def c6St3 : SpssState :=
  ((AddValueRow envFail c6Row c6St2).getD (initState, none)).1

theorem ext_refl (E : Env) (st : SpssState) : Ext E st st :=
  ⟨⟨[], by simp⟩, rfl, rfl, rfl, rfl, fun _ => rfl⟩

theorem ext_trans {E : Env} {a b c : SpssState} (h1 : Ext E a b)
    (h2 : Ext E b c) : Ext E a c := by
  obtain ⟨⟨t1, hf1⟩, hn1, hi1, hv1, hc1, ho1⟩ := h1
  obtain ⟨⟨t2, hf2⟩, hn2, hi2, hv2, hc2, ho2⟩ := h2
  exact ⟨⟨t1 ++ t2, by rw [hf2, hf1, List.append_assoc]⟩,
    hn2.trans hn1, hi2.trans hi1, hv2.trans hv1, hc2.trans hc1,
    fun hg => (ho2 hg).trans (ho1 hg)⟩

theorem ext_of_eq (E : Env) {st st' : SpssState} (h1 : st'.file = st.file)
    (h2 : st'.names = st.names) (h3 : st'.index = st.index)
    (h4 : st'.vars = st.vars) (h5 : st'.valCount = st.valCount)
    (h6 : st'.ok = st.ok) : Ext E st st' :=
  ⟨⟨[], by simp [h1]⟩, h2, h3, h4, h5, fun _ => h6⟩

theorem ext_emit (E : Env) (bs : List Nat) (st : SpssState) :
    Ext E st (emit E bs st).1 := by
  unfold emit
  split
  · exact ⟨⟨bs, rfl⟩, rfl, rfl, rfl, rfl, fun _ => rfl⟩
  · rename_i hcond
    refine ⟨⟨[], by simp⟩, rfl, rfl, rfl, rfl, fun hg => ?_⟩
    show false = st.ok
    cases hok : st.ok with
    | false => rfl
    | true => exact absurd (by simp [hok, hg st.file bs]) hcond

theorem ext_emitI (E : Env) (bs : List Nat) (st : SpssState) :
    Ext E st (emitI E bs st) := ext_emit E bs st

theorem ext_checkAndWrite (E : Env) (st : SpssState) :
    Ext E st (checkAndWrite E st).1 := by
  unfold checkAndWrite
  split
  · rcases h1 : emit E st.command st with ⟨st1, b1⟩
    have e1 : Ext E st st1 := by
      have := ext_emit E st.command st; rwa [h1] at this
    cases b1 with
    | false => simpa [h1] using e1
    | true =>
      rcases h2 : emit E st.data st1 with ⟨st2, b2⟩
      have e2 : Ext E st1 st2 := by
        have := ext_emit E st.data st1; rwa [h2] at this
      cases b2 with
      | false => simpa [h1, h2] using ext_trans e1 e2
      | true =>
        simp only [h1, h2]
        exact ext_trans e1 (ext_trans e2 (ext_of_eq E rfl rfl rfl rfl rfl rfl))
  · exact ext_refl E st

theorem ext_writeMissing (E : Env) (st : SpssState) :
    Ext E st (WriteMissing E st).1 := by
  unfold WriteMissing
  exact ext_trans (ext_of_eq E rfl rfl rfl rfl rfl rfl) (ext_checkAndWrite E _)

theorem ext_writeNumber (E : Env) (q : ℚ) (st : SpssState) :
    Ext E st (WriteNumber E q st).1 := by
  unfold WriteNumber
  rcases compactOpcode q with _ | i <;>
    exact ext_trans (ext_of_eq E rfl rfl rfl rfl rfl rfl) (ext_checkAndWrite E _)

theorem ext_bcPush (E : Env) (st : SpssState) (p : List Nat) :
    Ext E st (bcPush st p) := by
  unfold bcPush
  split <;> exact ext_of_eq E rfl rfl rfl rfl rfl rfl

theorem ext_bcWriteString (E : Env) (e : Nat) :
    ∀ (val : GoStr) (st : SpssState), Ext E st (bcWriteString E val e st).1 := by
  induction e with
  | zero => intro val st; exact ext_refl E st
  | succ n ih =>
    intro val st
    simp only [bcWriteString]
    have base : ∀ stm : SpssState, Ext E st stm →
        Ext E st (match checkAndWrite E stm with
          | (st', some e') => (st', some e')
          | (st', none) => bcWriteString E (if 8 < val.length then val.drop 8 else []) n st').1 := by
      intro stm hm
      rcases hcw : checkAndWrite E stm with ⟨stA, err⟩
      have eA : Ext E stm stA := by
        have := ext_checkAndWrite E stm; rwa [hcw] at this
      cases err with
      | some e' => exact ext_trans hm eA
      | none => exact ext_trans hm (ext_trans eA (ih _ stA))
    exact base _ (ext_bcPush E st _)

theorem ext_swWriteStringAux (E : Env) (v : IVar) (n : Nat) :
    ∀ (se : Nat) (val : GoStr) (st : SpssState),
      Ext E st (swWriteStringAux E v se n val st).1 := by
  induction n with
  | zero => intro se val st; exact ext_refl E st
  | succ n ih =>
    intro se val st
    rw [swWriteStringAux]
    rcases hbc : bcWriteString E (if 255 < val.length then val.take 255 else val)
        (elementCount (segmentWidth v se)).toNat st with ⟨stA, err⟩
    have eA : Ext E st stA := by
      have := ext_bcWriteString E (elementCount (segmentWidth v se)).toNat
        (if 255 < val.length then val.take 255 else val) st
      rwa [hbc] at this
    cases err with
    | some e' => simpa [hbc] using eA
    | none => simpa [hbc] using ext_trans eA (ih _ _ stA)

theorem ext_swWriteString (E : Env) (v : IVar) (val : GoStr) (st : SpssState) :
    Ext E st (swWriteString E v val st).1 :=
  ext_swWriteStringAux E v _ 0 val st

theorem ext_writeCell (E : Env) (values : List (GoStr × GoStr)) (v : IVar)
    (st : SpssState) : Ext E st (writeCell E values v st) := by
  unfold writeCell
  rcases lookupGo values v.name with _ | val
  · by_cases hs : v.spssType = SpssTypeString
    · simp only [if_pos hs]; exact ext_swWriteString E v [] st
    · simp only [if_neg hs]; exact ext_writeMissing E st
  · by_cases hs : v.spssType = SpssTypeString
    · simp only [if_pos hs]; exact ext_swWriteString E v _ st
    · simp only [if_neg hs]
      by_cases hd : v.spssType = SpssTypeDate
      · simp only [if_pos hd]
        rcases parseDDMonYYYY val with _ | u
        · exact ext_writeMissing E st
        · exact ext_writeNumber E _ st
      · simp only [if_neg hd]
        by_cases ht : v.spssType = SpssTypeDatetime
        · simp only [if_pos ht]
          rcases E.parseDatetime val with _ | u
          · exact ext_writeMissing E st
          · exact ext_writeNumber E _ st
        · simp only [if_neg ht]
          rcases E.parseFloat64 val with _ | q
          · exact ext_writeMissing E st
          · exact ext_writeNumber E q st

theorem ext_writeCells (E : Env) (values : List (GoStr × GoStr)) :
    ∀ (l : List IVar) (st : SpssState), Ext E st (writeCells E values l st) := by
  intro l
  induction l with
  | nil => intro st; exact ext_refl E st
  | cons v rest ih =>
    intro st
    exact ext_trans (ext_writeCell E values v st) (ih _)

theorem ext_bcFlush (E : Env) (st : SpssState) : Ext E st (bcFlush E st).1 := by
  unfold bcFlush
  exact ext_trans (ext_of_eq E rfl rfl rfl rfl rfl rfl) (ext_checkAndWrite E _)

theorem ext_valueLabelOne {E : Env} {v : IVar} {lab : Label}
    {st st' : SpssState} (h : valueLabelOne E v lab st = some st') :
    Ext E st st' := by
  unfold valueLabelOne at h
  rcases hb : labelValueBytes E v lab with _ | bs <;> rw [hb] at h
  · cases h
  · simp only [Option.some.injEq] at h
    subst h
    exact ext_trans (ext_emitI E _ _) (ext_trans (ext_emitI E _ _)
      (ext_trans (ext_emitI E _ _) (ext_emitI E _ _)))

theorem ext_valueLabelList {E : Env} {v : IVar} :
    ∀ {labs : List Label} {st st' : SpssState},
      valueLabelList E v labs st = some st' → Ext E st st' := by
  intro labs
  induction labs with
  | nil =>
    intro st st' h
    rw [valueLabelList] at h
    cases h
    exact ext_refl E st
  | cons lab rest ih =>
    intro st st' h
    rw [valueLabelList] at h
    rcases h1 : valueLabelOne E v lab st with _ | stA
    · rw [h1] at h; cases h
    · rw [h1] at h
      exact ext_trans (ext_valueLabelOne h1) (ih h)

theorem ext_valueLabelRecordsAux {E : Env} :
    ∀ {l : List IVar} {st st' : SpssState},
      valueLabelRecordsAux E l st = some st' → Ext E st st' := by
  intro l
  induction l with
  | nil =>
    intro st st' h
    rw [valueLabelRecordsAux] at h
    cases h
    exact ext_refl E st
  | cons v rest ih =>
    intro st st' h
    rw [valueLabelRecordsAux] at h
    split at h
    · rcases h1 : valueLabelList E v v.labels (emitI E (int32LE 3 ++ int32LE v.labels.length) st)
        with _ | stA
      · rw [h1] at h; cases h
      · rw [h1] at h
        exact ext_trans (ext_emitI E _ _) (ext_trans (ext_valueLabelList h1)
          (ext_trans (ext_emitI E _ _) (ih h)))
    · exact ih h

theorem ext_machineIntegerInfoRecord (E : Env) (st : SpssState) :
    Ext E st (machineIntegerInfoRecord E st) := ext_emitI E _ st

theorem ext_machineFloatingPointInfoRecord (E : Env) (st : SpssState) :
    Ext E st (machineFloatingPointInfoRecord E st) := ext_emitI E _ st

theorem ext_variableDisplayParameterRecord (E : Env) (st : SpssState) :
    Ext E st (variableDisplayParameterRecord E st) := ext_emitI E _ st

theorem ext_longVarNameRecords (E : Env) (st : SpssState) :
    Ext E st (longVarNameRecords E st) := ext_emitI E _ st

theorem ext_veryLongStringRecord (E : Env) (st : SpssState) :
    Ext E st (veryLongStringRecord E st) := by
  unfold veryLongStringRecord
  split
  · exact ext_emitI E _ st
  · exact ext_refl E st

theorem ext_encodingRecord (E : Env) (st : SpssState) :
    Ext E st (encodingRecord E st) := ext_emitI E _ st

theorem ext_longStringValueLabelsRecord (E : Env) (st : SpssState) :
    Ext E st (longStringValueLabelsRecord E st) := by
  unfold longStringValueLabelsRecord
  split
  · exact ext_emitI E _ st
  · exact ext_refl E st

theorem ext_terminationRecord (E : Env) (st : SpssState) :
    Ext E st (terminationRecord E st) := ext_emitI E _ st

theorem ext_writeInfoRecords {E : Env} {st st' : SpssState}
    (h : writeInfoRecords E st = some st') : Ext E st st' := by
  unfold writeInfoRecords at h
  rcases h1 : valueLabelRecords E st with _ | stA
  · rw [h1] at h; cases h
  · rw [h1] at h
    simp only [Option.some.injEq] at h
    subst h
    exact ext_trans (ext_valueLabelRecordsAux h1)
      (ext_trans (ext_machineIntegerInfoRecord E _)
        (ext_trans (ext_machineFloatingPointInfoRecord E _)
          (ext_trans (ext_variableDisplayParameterRecord E _)
            (ext_trans (ext_longVarNameRecords E _)
              (ext_trans (ext_veryLongStringRecord E _)
                (ext_trans (ext_encodingRecord E _)
                  (ext_trans (ext_longStringValueLabelsRecord E _)
                    (ext_terminationRecord E _))))))))

/-- Effect of a successful `AddValueRow`: output may grow, the schema is
unchanged, the row counter is incremented, and the returned Go error is
`nil`. -/
theorem addValueRow_some {E : Env} {values : List (GoStr × GoStr)}
    {st st' : SpssState} {e : Option Unit}
    (h : AddValueRow E values st = some (st', e)) :
    (∃ t, st'.file = st.file ++ t) ∧ st'.names = st.names ∧
      st'.index = st.index ∧ st'.vars = st.vars ∧
      st'.valCount = st.valCount + 1 ∧
      (GoodSink E → st'.ok = st.ok) ∧ e = none := by
  unfold AddValueRow at h
  rcases h1 : (if st.valCount = 0 then writeInfoRecords E st else some st)
    with _ | stA
  · rw [h1] at h; cases h
  · rw [h1] at h
    have eA : Ext E st stA := by
      by_cases hc : st.valCount = 0
      · rw [if_pos hc] at h1; exact ext_writeInfoRecords h1
      · rw [if_neg hc] at h1; cases h1; exact ext_refl E st
    simp only [Option.some.injEq, Prod.mk.injEq] at h
    obtain ⟨hst, he⟩ := h
    have eB : Ext E st (writeCells E values stA.vars stA) :=
      ext_trans eA (ext_writeCells E values stA.vars stA)
    obtain ⟨⟨t, hf⟩, hn, hi, hv, hc, ho⟩ := eB
    subst hst
    exact ⟨⟨t, hf⟩, hn, hi, hv, by rw [hc], fun hg => ho hg, he.symm⟩

theorem wext_of_ext {E : Env} {st st' : SpssState} (h : Ext E st st') :
    WExt E st st' := ⟨h.1, h.2.2.2.2.1, h.2.2.2.2.2⟩

theorem wext_refl (E : Env) (st : SpssState) : WExt E st st :=
  wext_of_ext (ext_refl E st)

theorem wext_trans {E : Env} {a b c : SpssState} (h1 : WExt E a b)
    (h2 : WExt E b c) : WExt E a c := by
  obtain ⟨⟨t1, hf1⟩, hc1, ho1⟩ := h1
  obtain ⟨⟨t2, hf2⟩, hc2, ho2⟩ := h2
  exact ⟨⟨t1 ++ t2, by rw [hf2, hf1, List.append_assoc]⟩, hc2.trans hc1,
    fun hg => (ho2 hg).trans (ho1 hg)⟩

theorem ext_iteEmit (E : Env) (bs : List Nat) {st st' : SpssState}
    (c : Prop) [Decidable c] (h : Ext E st st') :
    Ext E st (if c then emitI E bs st' else st') := by
  split
  · exact ext_trans h (ext_emitI E bs st')
  · exact h

/-- `varRecordSeg` is a pure emission followed by appending `v` to the
variable list. -/
theorem varRecordSeg_parts (E : Env) (v : IVar) (seg : Nat) (st : SpssState) :
    ∃ X : SpssState,
      varRecordSeg E v seg st = { X with vars := X.vars ++ [v] } ∧ Ext E st X := by
  simp only [varRecordSeg]
  exact ⟨_, rfl, ext_iteEmit E _ _ (ext_iteEmit E _ _
    (ext_trans (ext_emitI E _ _) (ext_emitI E _ _)))⟩

theorem wext_varRecordSeg (E : Env) (v : IVar) (seg : Nat) (st : SpssState) :
    WExt E st (varRecordSeg E v seg st) := by
  obtain ⟨X, heq, hext⟩ := varRecordSeg_parts E v seg st
  rw [heq]
  obtain ⟨⟨t, hf⟩, -, -, -, hc, ho⟩ := hext
  exact ⟨⟨t, hf⟩, hc, ho⟩

theorem varRecordSeg_schema (E : Env) (v : IVar) (seg : Nat) (st : SpssState) :
    (varRecordSeg E v seg st).vars = st.vars ++ [v] ∧
      (varRecordSeg E v seg st).names = st.names ∧
      (varRecordSeg E v seg st).index = st.index := by
  obtain ⟨X, heq, hext⟩ := varRecordSeg_parts E v seg st
  rw [heq]
  exact ⟨by rw [hext.2.2.2.1], hext.2.1, hext.2.2.1⟩

theorem wext_foldRecords (E : Env) (v : IVar) :
    ∀ (l : List Nat) (st : SpssState),
      WExt E st (l.foldl (fun s seg => varRecordSeg E v seg s) st) := by
  intro l
  induction l with
  | nil => intro st; exact wext_refl E st
  | cons a l ih =>
    intro st
    rw [List.foldl_cons]
    exact wext_trans (wext_varRecordSeg E v a st) (ih _)

theorem wext_addVarBody (E : Env) (v : IVar) (st : SpssState)
    (names' : List (GoStr × GoStr)) (I : Int) (l : List Nat) :
    WExt E st (l.foldl (fun s seg => varRecordSeg E v seg s)
      { st with names := names', index := I }) :=
  wext_trans ⟨⟨[], by simp⟩, rfl, fun _ => rfl⟩ (wext_foldRecords E v l _)

/-- `AddVariable` at most appends output: the row count is unchanged and
the error flag is unchanged under a good sink. -/
theorem addVariable_wext {E : Env} {st : SpssState} {V : Variable}
    {r : Option AVErr} {st' : SpssState}
    (h : AddVariable E st V = some (r, st')) : WExt E st st' := by
  unfold AddVariable at h
  split_ifs at h
  all_goals
    first
    | (simp only [Option.some.injEq, Prod.mk.injEq] at h
       obtain ⟨-, h2⟩ := h
       subst h2
       exact wext_refl _ _)
    | (rcases hc : checkAndGetShortName st V with _ | ⟨short, names'⟩ <;>
        rw [hc] at h <;>
        simp only [Option.some.injEq, Prod.mk.injEq, reduceCtorEq] at h <;>
        (obtain ⟨-, h2⟩ := h
         subst h2
         exact wext_trans ⟨⟨[], by simp⟩, rfl, fun _ => rfl⟩
           (wext_foldRecords E _ _ _)))

theorem runVars_wext {E : Env} :
    ∀ {Vs : List Variable} {st st' : SpssState},
      runVars E st Vs = some st' → WExt E st st' := by
  intro Vs
  induction Vs with
  | nil =>
    intro st st' h
    rw [runVars] at h
    cases h
    exact wext_refl E st
  | cons V rest ih =>
    intro st st' h
    rw [runVars] at h
    rcases ha : AddVariable E st V with _ | ⟨r, stA⟩ <;> rw [ha] at h
    · cases h
    · exact wext_trans (addVariable_wext ha) (ih h)

theorem runRows_spec {E : Env} :
    ∀ {rows : List (List (GoStr × GoStr))} {st st' : SpssState},
      runRows E st rows = some st' →
        (∃ t, st'.file = st.file ++ t) ∧
          st'.valCount = st.valCount + rows.length ∧
          (GoodSink E → st'.ok = st.ok) := by
  intro rows
  induction rows with
  | nil =>
    intro st st' h
    rw [runRows] at h
    cases h
    exact ⟨⟨[], by simp⟩, rfl, fun _ => rfl⟩
  | cons r rest ih =>
    intro st st' h
    rw [runRows] at h
    rcases ha : AddValueRow E r st with _ | ⟨stA, e⟩ <;> rw [ha] at h
    · cases h
    · obtain ⟨⟨t1, hf1⟩, -, -, -, hc1, ho1, -⟩ := addValueRow_some ha
      obtain ⟨⟨t2, hf2⟩, hc2, ho2⟩ := ih h
      refine ⟨⟨t1 ++ t2, by rw [hf2, hf1, List.append_assoc]⟩, ?_,
        fun hg => (ho2 hg).trans (ho1 hg)⟩
      rw [hc2, hc1]
      simp only [List.length_cons]
      omega

theorem stob_length (s : GoStr) (l : Nat) : (stob s l).length = l := by
  unfold stob
  split
  · simp only [List.length_take]
    omega
  · simp only [List.length_append, List.length_replicate]
    omega

theorem int32LE_length (n : Int) : (int32LE n).length = 4 := rfl

theorem headerBytes_length (E : Env) (vars : List IVar) :
    (headerBytes E vars).length = 176 := by
  simp [headerBytes, stob_length, int32LE_length, bias100Bytes]

theorem newSpssWriter_facts {E : Env} (hg : GoodSink E) :
    (NewSpssWriter E).file = headerBytes E [] ∧ (NewSpssWriter E).ok = true ∧
      (NewSpssWriter E).valCount = 0 ∧ (NewSpssWriter E).vars = [] ∧
      (NewSpssWriter E).names = [] := by
  unfold NewSpssWriter headerRecord emitI emit
  simp [initState, hg _ _]

theorem patch_read {α : Type} (f b : List α) (n : Nat) (h : 80 ≤ f.length)
    (hb : b.length = 4) : ((f.take 80 ++ b ++ f.drop n).drop 80).take 4 = b := by
  have h1 : (f.take 80).length = 80 := by
    simp only [List.length_take]
    omega
  rw [List.append_assoc, List.drop_left' h1, List.take_left' hb]

theorem envOk_good : GoodSink envOk := fun _ _ => rfl

/-- C3: for every run `new → add_variable* → add_row* → finish` in which
`n` add_row calls returned success, after `finish` the four bytes at
offsets 80..84 of the output are the little-endian i32 encoding of `n`
(the `ncases` placeholder -1 is patched to the row count). -/
theorem c3_finish_patches_ncases (E : Env) (hg : GoodSink E)
    (Vs : List Variable) (rows : List (List (GoStr × GoStr)))
    (st2 : SpssState) (h : runAll E Vs rows = some st2) :
    ((Finish E st2).file.drop 80).take 4 = int32LE rows.length := by
  obtain ⟨st1, h1, h2⟩ := Option.bind_eq_some.mp h
  obtain ⟨⟨t1, hf1⟩, hc1, ho1⟩ := runVars_wext h1
  obtain ⟨⟨t2, hf2⟩, hc2, ho2⟩ := runRows_spec h2
  obtain ⟨hw, hok, hvc, -, -⟩ := newSpssWriter_facts hg
  have hfile2 : st2.file = headerBytes E [] ++ (t1 ++ t2) := by
    rw [hf2, hf1, hw, List.append_assoc]
  have hok2 : st2.ok = true := by rw [ho2 hg, ho1 hg, hok]
  have hvc2 : st2.valCount = rows.length := by
    rw [hc2, hc1, hvc]
    omega
  unfold Finish updateHeaderNCases
  obtain ⟨⟨t3, hf3⟩, hc3, ho3⟩ := wext_of_ext (ext_bcFlush E st2)
  have hok3 : (bcFlush E st2).1.ok = true := by rw [ho3 hg, hok2]
  have hlen3 : 80 ≤ (bcFlush E st2).1.file.length := by
    rw [hf3, hfile2]
    simp only [List.length_append, headerBytes_length]
    omega
  unfold seekWrite80
  rw [if_pos (by simp [hok3, hg _ _]), hvc2]
  exact patch_read _ _ _ hlen3 (int32LE_length _)

/-- Witness for C3: the concrete run with one numeric variable and two
rows stores 2 at offsets 80..84. -/
theorem c3_finish_patches_ncases_witness :
    ((Finish envOk c3St).file.drop 80).take 4 = int32LE 2 := by
  have h : runAll envOk [numericVar] c3Rows = some c3St := by decide
  exact c3_finish_patches_ncases envOk envOk_good _ _ c3St h

/-- C1 (code bug): the header's `nominal_case_size` field at byte offset
68 is written during construction, when the variable list is still
empty, and `Finish` patches only offset 80 — so after adding one
default-width numeric variable (whose element sum is 1) the field still
holds 0 instead of 1. -/
theorem c1_nominal_case_size_is_stale :
    runAll envOk [numericVar] [] = some c1St ∧
    caseSize c1St.vars = 1 ∧
    ((Finish envOk c1St).file.drop 68).take 4 = int32LE 0 ∧
    int32LE 0 ≠ int32LE 1 :=
  ⟨by decide, by decide, by decide, by decide⟩

/-- C2 (code bug): `getSegments` returns 1 for every variable, so a
string of width 300 is kept as one 300-byte segment instead of being
split into 252-byte segments, and `veryLongStringRecord` (the only
subtype-14 emitter, invoked by the first `AddValueRow`) finds no
variable with more than one segment and emits nothing. -/
theorem c2_no_string_segmentation :
    (∀ V : Variable, getSegments V = 1) ∧
    (runVars envOk (NewSpssWriter envOk) [stringVar300]).isSome = true ∧
    c2St.vars.map (·.segments) = [1] ∧
    veryLongStringRecord envOk c2St = c2St := by
  refine ⟨fun _ => rfl, by decide, by decide, ?_⟩
  have h : (c2St.vars.any fun v => decide (1 < v.segments)) = false := by decide
  simp [veryLongStringRecord, h]

theorem find?_eq_some_of_unique {p : Nat → Bool} {i : Nat} :
    ∀ {l : List Nat}, i ∈ l → (∀ j ∈ l, p j = true ↔ j = i) →
      l.find? p = some i := by
  intro l
  induction l with
  | nil => intro hmem; cases hmem
  | cons a l ih =>
    intro hmem hp
    by_cases ha : p a = true
    · have haa : a = i := (hp a (List.mem_cons_self a l)).mp ha
      rw [List.find?_cons_of_pos _ ha, haa]
    · rw [List.find?_cons_of_neg _ ha]
      rcases List.mem_cons.mp hmem with h | h
      · exact absurd ((hp a (List.mem_cons_self a l)).mpr h.symm) ha
      · exact ih h (fun j hj => hp j (List.mem_cons_of_mem a hj))

theorem compactOpcode_of_int {q : ℚ} {i : Nat} (h1 : 1 ≤ i) (h2 : i ≤ 251)
    (h3 : q + 100 = (i : ℚ)) : compactOpcode q = some i := by
  unfold compactOpcode
  apply find?_eq_some_of_unique
  · rw [List.mem_range'_1]
    omega
  · intro j hj
    simp only [decide_eq_true_eq]
    constructor
    · intro hq
      have hji : (j : ℚ) = (i : ℚ) := by linarith
      exact_mod_cast hji
    · rintro rfl
      linarith

theorem compactOpcode_none {q : ℚ}
    (h : ∀ j : Nat, 1 ≤ j → j ≤ 251 → q + 100 ≠ (j : ℚ)) :
    compactOpcode q = none := by
  unfold compactOpcode
  rw [List.find?_eq_none]
  intro j hj
  rw [List.mem_range'_1] at hj
  simp only [decide_eq_true_eq]
  intro hq
  exact h j (by omega) (by omega) (by linarith)

/-- C4: `WriteNumber f` pushes the single opcode byte `i`, leaving the
data buffer untouched, exactly when `f + 100` equals an integer
`i ∈ [1, 251]`; otherwise it pushes opcode 253 and appends the 8
serialized IEEE-754 bytes of `f` to the data buffer.  `f = 0` takes the
compact path with opcode 100. -/
theorem c4_writeNumber_compaction (E : Env) (st : SpssState) (q : ℚ) (i : Nat) :
    (1 ≤ i → i ≤ 251 → q + 100 = (i : ℚ) →
      WriteNumber E q st =
        checkAndWrite E { st with command := st.command ++ [i] }) ∧
    ((∀ j : Nat, 1 ≤ j → j ≤ 251 → q + 100 ≠ (j : ℚ)) →
      WriteNumber E q st = checkAndWrite E
        { st with command := st.command ++ [253],
                  data := st.data ++ E.f64le q }) ∧
    compactOpcode 0 = some 100 := by
  refine ⟨fun h1 h2 h3 => ?_, fun h => ?_,
    compactOpcode_of_int (by norm_num) (by norm_num) (by norm_num)⟩
  · unfold WriteNumber
    rw [compactOpcode_of_int h1 h2 h3]
  · unfold WriteNumber
    rw [compactOpcode_none h]

/-- Witness for C4 at `f = 0` (compact path, opcode 100) and `f = 300`
(literal path, opcode 253 plus payload). -/
theorem c4_writeNumber_compaction_witness :
    WriteNumber envOk 0 initState =
      checkAndWrite envOk { initState with command := initState.command ++ [100] } ∧
    WriteNumber envOk 300 initState =
      checkAndWrite envOk { initState with command := initState.command ++ [253],
                                           data := initState.data ++ envOk.f64le 300 } := by
  constructor
  · exact (c4_writeNumber_compaction envOk initState 0 100).1 (by norm_num)
      (by norm_num) (by norm_num)
  · refine (c4_writeNumber_compaction envOk initState 300 1).2.1 ?_
    intro j hj1 hj2 hq
    have hj4 : (j : ℚ) = 400 := by linarith
    have hj5 : j = 400 := by exact_mod_cast hj4
    omega

theorem valueLabelList_abort {E : Env} {v : IVar}
    (hnum : v.spssType = SpssTypeNumeric) :
    ∀ {labs : List Label} {lab : Label} {st : SpssState}, lab ∈ labs →
      E.parseFloat32 lab.value = none → valueLabelList E v labs st = none := by
  intro labs
  induction labs with
  | nil => intro lab st h _; cases h
  | cons a rest ih =>
    intro lab st hmem hp
    rw [valueLabelList]
    rcases h1 : valueLabelOne E v a st with _ | stA
    · rfl
    · rcases List.mem_cons.mp hmem with heq | hmem'
      · exfalso
        subst heq
        have hlb : labelValueBytes E v lab = none := by
          unfold labelValueBytes
          rw [if_neg (by simp [hnum]), hp]
          rfl
        unfold valueLabelOne at h1
        rw [hlb] at h1
        cases h1
      · exact ih hmem' hp

theorem valueLabelRecordsAux_abort {E : Env} {v : IVar} {lab : Label}
    (hnum : v.spssType = SpssTypeNumeric) (hlab : lab ∈ v.labels)
    (hp : E.parseFloat32 lab.value = none) :
    ∀ {l : List IVar} {st : SpssState}, v ∈ l →
      valueLabelRecordsAux E l st = none := by
  intro l
  induction l with
  | nil => intro st h; cases h
  | cons a rest ih =>
    intro st hmem
    rw [valueLabelRecordsAux]
    rcases List.mem_cons.mp hmem with heq | hmem'
    · subst heq
      rw [if_pos ⟨List.ne_nil_of_mem hlab, by rw [hnum]; decide⟩]
      rw [valueLabelList_abort hnum hlab hp]
    · split
      · rcases valueLabelList E a a.labels
            (emitI E (int32LE 3 ++ int32LE a.labels.length) st) with _ | stA
        · rfl
        · exact ih hmem'
      · exact ih hmem'

/-- C10: if a declared Numeric variable carries a value label whose text
does not parse as a float, the first `AddValueRow` call hits the fatal
`atof` branch while emitting the type-3 value-label records and aborts
the process instead of returning an error. -/
theorem c10_atof_fatal_reachable (E : Env) (st : SpssState)
    (values : List (GoStr × GoStr)) (v : IVar) (lab : Label)
    (hvc : st.valCount = 0) (hv : v ∈ st.vars)
    (hnum : v.spssType = SpssTypeNumeric) (hlab : lab ∈ v.labels)
    (hp : E.parseFloat32 lab.value = none) :
    AddValueRow E values st = none := by
  unfold AddValueRow
  rw [if_pos hvc]
  have h : writeInfoRecords E st = none := by
    unfold writeInfoRecords valueLabelRecords
    rw [valueLabelRecordsAux_abort hnum hlab hp hv]
  rw [h]

/-- Witness for C10: a numeric variable with the unparsable value label
`"xx"` makes the first `AddValueRow` abort. -/
theorem c10_atof_fatal_reachable_witness :
    AddValueRow envOk [] c10St = none :=
  c10_atof_fatal_reachable envOk c10St [] c10IV
    { value := asciiBytes ("xx"), desc := asciiBytes ("bad") }
    (by decide) (by decide) (by decide) (by decide) (by decide)

/-- C9: a Date cell is parsed as `DD-Mon-YYYY` and on success the number
`unix_seconds + 12_219_379_200` is written through `WriteNumber`; the
input `"14-Oct-1582"` parses to -12219379200 Unix seconds, encodes the
value 0, and 0 takes the single compact opcode byte 100. -/
theorem c9_date_epoch (E : Env) (values : List (GoStr × GoStr)) (v : IVar)
    (st : SpssState) (val : GoStr) (u : Int) :
    (v.spssType = SpssTypeDate → lookupGo values v.name = some val →
      parseDDMonYYYY val = some u →
      writeCell E values v st = (WriteNumber E ((u + TimeOffset : Int) : ℚ) st).1) ∧
    parseDDMonYYYY (asciiBytes ("14-Oct-1582")) = some (-12219379200) ∧
    (((-12219379200 : Int) + TimeOffset : Int) : ℚ) = 0 ∧
    compactOpcode 0 = some 100 := by
  refine ⟨fun ht hl hp => ?_, by decide, by norm_num [TimeOffset],
    compactOpcode_of_int (by norm_num) (by norm_num) (by norm_num)⟩
  unfold writeCell
  simp only [hl, ht, hp, reduceIte]
  rw [if_neg (by decide)]

/-- Witness for C9: the concrete date cell `"14-Oct-1582"` writes the
number 0, which appears as the single opcode byte 100. -/
theorem c9_date_epoch_witness :
    writeCell envOk c9Values dateIV initState =
      (WriteNumber envOk (((-12219379200 : Int) + TimeOffset : Int) : ℚ) initState).1 ∧
    (writeCell envOk c9Values dateIV initState).command = [100] := by
  have h1 := (c9_date_epoch envOk c9Values dateIV initState
    (asciiBytes ("14-Oct-1582")) (-12219379200)).1 (by decide) (by decide) (by decide)
  refine ⟨h1, ?_⟩
  rw [h1]
  have h2 : compactOpcode (((-12219379200 : Int) + TimeOffset : Int) : ℚ) = some 100 :=
    compactOpcode_of_int (by norm_num) (by norm_num)
      (by norm_num [TimeOffset])
  unfold WriteNumber
  rw [h2]
  decide

/-- C8: for every declared non-String variable, `AddValueRow` writes the
system-missing opcode (`WriteMissing`, opcode 255) for its cell both
when the row has no entry for the variable's name and when the text
fails to parse (float for the Numeric default branch, date or datetime
for the Date/Datetime branches), and the call still returns success; a
missing key for a String variable writes the empty string over its
segments instead.  `writeCell` is the loop body of `AddValueRow`. -/
theorem c8_missing_and_parse_failures (E : Env) (values : List (GoStr × GoStr))
    (v : IVar) (st : SpssState) :
    (v.spssType ≠ SpssTypeString → lookupGo values v.name = none →
      writeCell E values v st = (WriteMissing E st).1) ∧
    (∀ val, lookupGo values v.name = some val →
      (v.spssType = SpssTypeDate → parseDDMonYYYY val = none →
        writeCell E values v st = (WriteMissing E st).1) ∧
      (v.spssType = SpssTypeDatetime → E.parseDatetime val = none →
        writeCell E values v st = (WriteMissing E st).1) ∧
      (v.spssType ≠ SpssTypeString → v.spssType ≠ SpssTypeDate →
        v.spssType ≠ SpssTypeDatetime → E.parseFloat64 val = none →
        writeCell E values v st = (WriteMissing E st).1)) ∧
    (v.spssType = SpssTypeString → lookupGo values v.name = none →
      writeCell E values v st = (swWriteString E v [] st).1) ∧
    (∀ p, AddValueRow E values st = some p → p.2 = none) := by
  refine ⟨fun hs hl => ?_, fun val hl => ⟨fun ht hp => ?_, fun ht hp => ?_,
    fun hs hd hdt hp => ?_⟩, fun hs hl => ?_, fun p hp => ?_⟩
  · unfold writeCell
    simp only [hl, if_neg hs]
  · unfold writeCell
    simp only [hl, ht, hp, reduceIte]
    rw [if_neg (by decide)]
  · unfold writeCell
    simp only [hl, ht, hp, reduceIte]
    rw [if_neg (by decide), if_neg (by decide)]
  · unfold writeCell
    simp only [hl, hp, if_neg hs, if_neg hd, if_neg hdt]
  · unfold writeCell
    simp only [hl, if_pos hs]
  · obtain ⟨st', e⟩ := p
    exact (addValueRow_some hp).2.2.2.2.2.2

/-- Witness for C8: a numeric cell with no row entry writes the missing
opcode, and `AddValueRow` on a fresh writer returns success. -/
theorem c8_missing_and_parse_failures_witness :
    writeCell envOk [] numericIV initState = (WriteMissing envOk initState).1 ∧
    ((AddValueRow envOk [] (NewSpssWriter envOk)).getD (initState, none)).2 = none := by
  constructor
  · exact (c8_missing_and_parse_failures envOk [] numericIV initState).1
      (by decide) rfl
  · have h : AddValueRow envOk [] (NewSpssWriter envOk) =
        some ((AddValueRow envOk [] (NewSpssWriter envOk)).getD (initState, none)) := by
      decide
    exact (c8_missing_and_parse_failures envOk [] numericIV (NewSpssWriter envOk)).2.2.2 _ h

/-- C7: whenever a variable fails validation, `AddVariable` returns an
error and the writer state — variable list, name map, column index and
the output bytes, all fields of the state — is exactly unchanged. -/
theorem c7_failed_addVariable_leaves_state (E : Env) (st : SpssState)
    (V : Variable) (h : failsValidation st V) :
    (AddVariable E st V).map (fun r => (r.1.isSome, r.2)) = some (true, st) := by
  unfold AddVariable
  split_ifs with h1 h2 h3 h4 h5 h6 h7 h8 h9 <;>
    first
    | rfl
    | (exfalso
       rcases h with h | h | h | h | h | h | h | h | h | h <;>
         first
         | exact h1 h
         | exact h2 h
         | (rw [h] at h3; simp at h3)
         | exact h4 h
         | exact h5 (Or.inl h)
         | exact h5 (Or.inr h)
         | exact h6 (Or.inl h)
         | exact h6 (Or.inr h)
         | exact h7 h
         | exact h8 h)

/-- Witness for C7: adding an empty-named variable fails and leaves the
fresh writer state untouched. -/
theorem c7_failed_addVariable_leaves_state_witness :
    (AddVariable envOk (NewSpssWriter envOk) emptyNameVar).map
        (fun r => (r.1.isSome, r.2)) = some (true, NewSpssWriter envOk) :=
  c7_failed_addVariable_leaves_state envOk (NewSpssWriter envOk) emptyNameVar
    (Or.inl rfl)

theorem lookup_insertGo_self (m : List (GoStr × GoStr)) (k v : GoStr) :
    lookupGo (insertGo m k v) k = some v := by
  induction m with
  | nil => simp [insertGo, lookupGo]
  | cons a rest ih =>
    obtain ⟨k1, v1⟩ := a
    unfold insertGo
    split
    · unfold lookupGo
      rw [if_pos rfl]
    · unfold lookupGo
      rename_i hne
      rw [if_neg hne]
      exact ih

theorem lookup_insertGo_isSome {m : List (GoStr × GoStr)} {q : GoStr}
    (k v : GoStr) (h : (lookupGo m q).isSome = true) :
    (lookupGo (insertGo m k v) q).isSome = true := by
  induction m with
  | nil => simp [lookupGo] at h
  | cons a rest ih =>
    obtain ⟨k1, v1⟩ := a
    unfold insertGo
    split
    · rename_i he
      unfold lookupGo
      by_cases hk : k = q
      · rw [if_pos hk]; rfl
      · rw [if_neg hk]
        unfold lookupGo at h
        rw [if_neg (by rw [he]; exact hk)] at h
        exact h
    · unfold lookupGo
      by_cases hk : k1 = q
      · rw [if_pos hk]; rfl
      · rw [if_neg hk]
        unfold lookupGo at h
        rw [if_neg hk] at h
        exact ih h

theorem shortNameLoop_fresh (names : List (GoStr × GoStr)) :
    ∀ (fuel i : Nat) (short s : GoStr),
      shortNameLoop names fuel i short = some s → lookupGo names s = none := by
  intro fuel
  induction fuel with
  | zero => intro i short s h; cases h
  | succ n ih =>
    intro i short s h
    rw [shortNameLoop] at h
    split at h
    · rename_i hfound
      cases h
      exact Option.isNone_iff_eq_none.mp hfound
    · split at h
      · cases h
      · split at h
        · cases h
        · exact ih _ _ _ h

theorem getShortName_spec {st : SpssState} {V : Variable} {short : GoStr}
    {names' : List (GoStr × GoStr)}
    (h : getShortName st V = some (short, names')) :
    lookupGo st.names short = none ∧
      names' = insertGo st.names short V.name := by
  unfold getShortName at h
  rcases hl : shortNameLoop st.names 100000000 1 ((goToUpper V.name).take 8)
    with _ | s <;> rw [hl] at h
  · cases h
  · simp only [Option.some.injEq, Prod.mk.injEq] at h
    obtain ⟨hs, hn⟩ := h
    subst hs
    exact ⟨shortNameLoop_fresh _ _ _ _ _ hl, hn.symm⟩

theorem varRecordSeg_vars (E : Env) (v : IVar) (seg : Nat) (st : SpssState) :
    (varRecordSeg E v seg st).vars = st.vars ++ [v] :=
  (varRecordSeg_schema E v seg st).1

theorem varRecordSeg_names (E : Env) (v : IVar) (seg : Nat) (st : SpssState) :
    (varRecordSeg E v seg st).names = st.names :=
  (varRecordSeg_schema E v seg st).2.1

/-- Shape of a successful derived-short-name `AddVariable`: either a
validation error left the state unchanged, or a fresh short name was
recorded in the name map and one internal variable carrying it was
appended. -/
theorem addVariable_derived_shape {E : Env} {st : SpssState} {V : Variable}
    {r : Option AVErr} {st' : SpssState} (hd : V.shortName = [])
    (h : AddVariable E st V = some (r, st')) :
    st' = st ∨ ∃ short : GoStr,
      st'.vars.map (·.shortName) = st.vars.map (·.shortName) ++ [short] ∧
      lookupGo st.names short = none ∧
      st'.names = insertGo st.names short V.name := by
  unfold AddVariable at h
  split_ifs at h
  all_goals
    first
    | (simp only [Option.some.injEq, Prod.mk.injEq] at h
       exact Or.inl h.2.symm)
    | (right
       rw [checkAndGetShortName, if_pos hd] at h
       rcases hg : getShortName st V with _ | ⟨short, names'⟩ <;> rw [hg] at h
       · cases h
       · obtain ⟨hfresh, hins⟩ := getShortName_spec hg
         simp only [Option.some.injEq, Prod.mk.injEq] at h
         obtain ⟨-, h2⟩ := h
         subst h2
         refine ⟨short, ?_, hfresh, ?_⟩
         · simp only [getSegments, Int.toNat_one, List.range_succ,
             List.range_zero, List.nil_append, List.foldl_cons,
             List.foldl_nil, varRecordSeg_vars, List.map_append,
             List.map_cons, List.map_nil]
         · simp only [getSegments, Int.toNat_one, List.range_succ,
             List.range_zero, List.nil_append, List.foldl_cons,
             List.foldl_nil, varRecordSeg_names]
           exact hins)

theorem shortInv_addVariable {E : Env} {st : SpssState} {V : Variable}
    {r : Option AVErr} {st' : SpssState} (hd : V.shortName = [])
    (h : AddVariable E st V = some (r, st')) (hinv : ShortInv st) :
    ShortInv st' := by
  rcases addVariable_derived_shape hd h with heq | ⟨short, hmap, hfresh, hnames⟩
  · rwa [heq]
  · constructor
    · intro u hu
      rw [hnames]
      have hmem : u.shortName ∈ st'.vars.map (·.shortName) :=
        List.mem_map_of_mem _ hu
      rw [hmap] at hmem
      rcases List.mem_append.mp hmem with hm | hm
      · obtain ⟨u0, hu0, he0⟩ := List.mem_map.mp hm
        rw [← he0]
        exact lookup_insertGo_isSome _ _ (hinv.1 u0 hu0)
      · have hus : u.shortName = short := by simpa using hm
        rw [hus, lookup_insertGo_self]
        rfl
    · rw [hmap, List.nodup_append]
      refine ⟨hinv.2, by simp, ?_⟩
      intro x hx hx2
      have hx3 : x = short := by simpa using hx2
      subst hx3
      obtain ⟨u, hu, hu2⟩ := List.mem_map.mp hx
      have hsome := hinv.1 u hu
      rw [hu2, hfresh] at hsome
      cases hsome

theorem runVars_shortInv {E : Env} :
    ∀ {Vs : List Variable} {st st' : SpssState},
      (∀ V ∈ Vs, V.shortName = []) → runVars E st Vs = some st' →
      ShortInv st → ShortInv st' := by
  intro Vs
  induction Vs with
  | nil =>
    intro st st' _ h hinv
    rw [runVars] at h
    cases h
    exact hinv
  | cons V rest ih =>
    intro st st' hd h hinv
    rw [runVars] at h
    rcases ha : AddVariable E st V with _ | ⟨r, stA⟩ <;> rw [ha] at h
    · cases h
    · exact ih (fun W hW => hd W (List.mem_cons_of_mem V hW)) h
        (shortInv_addVariable (hd V (List.mem_cons_self V rest)) ha hinv)

theorem newSpssWriter_shortInv (E : Env) : ShortInv (NewSpssWriter E) := by
  have hv : (NewSpssWriter E).vars = [] := (ext_emit E _ initState).2.2.2.1
  constructor
  · intro v hvmem
    rw [hv] at hvmem
    cases hvmem
  · rw [hv]
    simp

/-- C5 (amended): after every sequence of `AddVariable` calls in which
the caller omits the short name (so the writer derives it), the recorded
short names are pairwise distinct.  (The original claim fails for
caller-supplied explicit short names: see the counterexample.) -/
theorem c5_derived_short_names_nodup (E : Env) (Vs : List Variable)
    (st' : SpssState) (hd : ∀ V ∈ Vs, V.shortName = [])
    (h : runVars E (NewSpssWriter E) Vs = some st') :
    (st'.vars.map (·.shortName)).Nodup :=
  (runVars_shortInv hd h (newSpssWriter_shortInv E)).2

/-- Witness for the amended C5: the derived shorts `AB` and `CD` are
distinct. -/
theorem c5_derived_short_names_nodup_witness :
    (c5DSt.vars.map (·.shortName)).Nodup := by
  have h : runVars envOk (NewSpssWriter envOk) [derVarA, derVarB] = some c5DSt := by
    decide
  exact c5_derived_short_names_nodup envOk _ _ (by decide) h

/-- C5 counterexample: two successful `AddVariable` calls that supply the
same explicit short name record colliding short names — the writer never
checks explicit short names for uniqueness (main.go:94-100). -/
theorem c5_short_name_collision :
    AddVariable envOk (NewSpssWriter envOk) xVarA = some (none, c5St1) ∧
    AddVariable envOk c5St1 xVarB = some (none, c5St2) ∧
    c5St2.vars.map (·.shortName) = [asciiBytes ("X"), asciiBytes ("X")] ∧
    ¬ (c5St2.vars.map (·.shortName)).Nodup :=
  ⟨by decide, by decide, by decide, by decide⟩

/-- C6 counterexample: with a sink that fails every write, the state
records the I/O failure (`ok = false`) from construction on, yet
`AddVariable` and `AddValueRow` report success, and `Finish` — which has
no error result at all — leaves the failure unreported. -/
theorem c6_io_errors_swallowed :
    c6St1.ok = false ∧
    AddVariable envFail c6St1 numericVar = some (none, c6St2) ∧
    AddValueRow envFail c6Row c6St2 = some (c6St3, none) ∧
    c6St3.ok = false ∧
    (Finish envFail c6St3).ok = false :=
  ⟨by decide, by decide, by decide, by decide, by decide⟩

/-- C6 (amended): I/O errors are never propagated: `AddValueRow` always
returns nil, and an `AddVariable` error always stems from schema
validation, never from the sink; `Finish` has no error result. -/
theorem c6_no_error_propagation (E : Env) (values : List (GoStr × GoStr))
    (st : SpssState) (V : Variable) :
    (∀ p, AddValueRow E values st = some p → p.2 = none) ∧
    (∀ r st', AddVariable E st V = some (r, st') → r ≠ none →
      failsValidation st V) := by
  constructor
  · intro p hp
    obtain ⟨st', e⟩ := p
    exact (addValueRow_some hp).2.2.2.2.2.2
  · intro r st' h hr
    unfold AddVariable at h
    split_ifs at h with h1 h2 h3 h4 h5 h6 h7 h8 h9
    · exact Or.inl h1
    · exact Or.inr (Or.inl h2)
    · refine Or.inr (Or.inr (Or.inl ?_))
      simpa using h3
    · exact Or.inr (Or.inr (Or.inr (Or.inl h4)))
    · rcases h5 with h5 | h5
      · exact Or.inr (Or.inr (Or.inr (Or.inr (Or.inl h5))))
      · exact Or.inr (Or.inr (Or.inr (Or.inr (Or.inr (Or.inl h5)))))
    · rcases h6 with h6 | h6
      · exact Or.inr (Or.inr (Or.inr (Or.inr (Or.inr (Or.inr (Or.inl h6))))))
      · exact Or.inr (Or.inr (Or.inr (Or.inr (Or.inr (Or.inr (Or.inr
          (Or.inl h6)))))))
    · exact Or.inr (Or.inr (Or.inr (Or.inr (Or.inr (Or.inr (Or.inr (Or.inr
        (Or.inl h7))))))))
    · exact Or.inr (Or.inr (Or.inr (Or.inr (Or.inr (Or.inr (Or.inr (Or.inr
        (Or.inr h8))))))))
    all_goals
      (exfalso
       apply hr
       rcases hg : checkAndGetShortName st V with _ | ⟨short, names'⟩ <;>
         rw [hg] at h
       · cases h
       · simp only [Option.some.injEq, Prod.mk.injEq] at h
         exact h.1.symm)

/-- Witness for the amended C6: a concrete `AddValueRow` returns nil, and
the error returned for an empty-named variable is a validation failure. -/
theorem c6_no_error_propagation_witness :
    ((AddValueRow envOk [] (NewSpssWriter envOk)).getD (initState, none)).2 = none ∧
    failsValidation (NewSpssWriter envOk) emptyNameVar := by
  constructor
  · have h : AddValueRow envOk [] (NewSpssWriter envOk) =
        some ((AddValueRow envOk [] (NewSpssWriter envOk)).getD (initState, none)) := by
      decide
    exact (c6_no_error_propagation envOk [] (NewSpssWriter envOk) emptyNameVar).1 _ h
  · exact (c6_no_error_propagation envOk [] (NewSpssWriter envOk) emptyNameVar).2
      (some .nameEmpty) (NewSpssWriter envOk) (by decide) (by simp)

end GoSpss
